import Mathlib

/-!
Shallow embedding of `src/pokemon_server/server.py` (the Record Service of
this repository) and proofs about its three handlers.

Modelling conventions:
* Python strings are Lean `String`s; Python `str.lower()` is `pyLower`
  (character-wise `Char.toLower`, which agrees with CPython on the ASCII
  data occurring here).
* Python dicts are insertion-ordered association lists; `d[k]` /
  `k in d` go through `dictGet` (first binding wins, as in a dict whose
  keys are unique).
* A raised Python exception is the `error` side of `Except`; `ValueError`
  and `KeyError` are the two constructors of `PyError`.
* A response body produced by `json.dumps(v, indent=2)` is kept as the
  structured `Json` value `v` it serializes; `json.dumps` is injective on
  these values, so two payloads decode to the same object exactly when the
  corresponding `Json` values are equal.
* The handlers are `async` only because the transport collaborator demands
  it; they perform no effects, so they are embedded as pure functions.
  Being pure, repeated calls trivially agree (no hidden mutation).
-/

namespace PokemonServer

/-- JSON values as they occur in this server: strings, integers, arrays
and (insertion-ordered) objects. -/
inductive Json where
  | str : String → Json
  | int : Int → Json
  | arr : List Json → Json
  | obj : List (String × Json) → Json

/-- Python dict access `d[k]` on an association list: the first binding of
the key, `none` when `k not in d`. -/
def dictGet (k : String) : List (String × α) → Option α
  | [] => none
  | (k₂, v) :: rest => if k = k₂ then some v else dictGet k rest

/-- Field access in a decoded JSON object (used to state what a serialized
payload decodes to at a given key). -/
def Json.getField : Json → String → Option Json
  | .obj kvs, k => dictGet k kvs
  | _, _ => none

/-- One record of `POKEMON_DATA`: display name, type tag, description and
the stats sub-dict (attribute name to integer value, insertion-ordered). -/
structure PokemonRecord where
  name : String
  type : String
  description : String
  stats : List (String × Int)
deriving DecidableEq

/-- The single record stored in `POKEMON_DATA` (named here so theorems can
refer to it; it is inlined in the source). -/
def pikachuRecord : PokemonRecord :=
  { name := "Pikachu"
    type := "Electric"
    description := "A Mouse Pokémon. It can generate electric attacks from the electric pouches located in both of its cheeks."
    stats := [("hp", 35), ("attack", 55), ("defense", 40), ("speed", 90)] }

/-- The process-wide mapping `POKEMON_DATA`, an insertion-ordered dict from
lowercase identifier to record. -/
def POKEMON_DATA : List (String × PokemonRecord) :=
  [("pikachu", pikachuRecord)]

/-- An MCP resource descriptor as built by `list_resources` (the `AnyUrl`
is kept as its underlying string). -/
structure Resource where
  uri : String
  name : String
  mimeType : String
  description : String
deriving DecidableEq

/-- Handler `list_resources()`: one descriptor per `POKEMON_DATA` entry, in
mapping order. -/
def list_resources : List Resource :=
  POKEMON_DATA.map fun p =>
    { uri := "pokemon://" ++ p.1
      name := p.2.name
      mimeType := "application/json"
      description := "Information about " ++ p.2.name }

/-- Python `s.replace(pat, "")` for the non-empty patterns used here:
delete the non-overlapping occurrences of `pat`, scanning left to right
(CPython finds each occurrence in the original string and does not rescan
the splice). When the head of `s` starts an occurrence, the whole
occurrence is consumed: with `pat` non-empty, dropping `pat.length - 1`
from `rest` is dropping `pat.length` from `c :: rest`. An empty `pat`
deletes nothing, as in CPython's `s.replace("", "")`. -/
def removeAll (pat : List Char) : List Char → List Char
  | [] => []
  | c :: rest =>
    if pat ≠ [] ∧ pat.isPrefixOf (c :: rest) then
      removeAll pat (rest.drop (pat.length - 1))
    else
      c :: removeAll pat rest
termination_by s => s.length
decreasing_by
  · have hd : (rest.drop (pat.length - 1)).length ≤ rest.length := by
      rw [List.length_drop]; omega
    simp only [List.length_cons]
    omega
  · simp

/-- The scheme string of this server's resource URIs, as a character list. -/
def schemeChars : List Char := "pokemon://".data

/-- The identifier-extraction step of `read_resource`:
`str(uri).replace("pokemon://", "")`. -/
def stripScheme (uri : String) : String :=
  ⟨removeAll schemeChars uri.data⟩

/-- JSON value whose `json.dumps(·, indent=2)` text `read_resource` returns
for a stored record (dict order: name, type, description, stats). -/
def recordJson (r : PokemonRecord) : Json :=
  .obj [("name", .str r.name), ("type", .str r.type),
        ("description", .str r.description),
        ("stats", .obj (r.stats.map fun q => (q.1, .int q.2)))]

/-- Handler `read_resource(uri)`: strip the scheme from the URI, fail with
the raised `ValueError` message when the identifier is unknown, otherwise
return the serialized record. -/
def read_resource (uri : String) : Except String Json :=
  let pokemon_id := stripScheme uri
  match dictGet pokemon_id POKEMON_DATA with
  | none => .error ("Unknown Pokemon: " ++ pokemon_id)
  | some data => .ok (recordJson data)

/-- An MCP tool descriptor as built by `list_tools`. -/
structure Tool where
  name : String
  description : String
  inputSchema : Json

/-- Handler `list_tools()`: the single `get_stats` tool and its declared
input schema. -/
def list_tools : List Tool :=
  [{ name := "get_stats"
     description := "Get detailed stats for a specific Pokemon"
     inputSchema := .obj
       [("type", .str "object"),
        ("properties", .obj
          [("pokemon", .obj
            [("type", .str "string"),
             ("description", .str "Name of the Pokemon (e.g., pikachu, charizard)")])]),
        ("required", .arr [.str "pokemon"])] }]

/-- A `TextContent` block; `text` holds the decoded value of the
`json.dumps(·, indent=2)` string the source stores there. -/
structure TextContent where
  type : String
  text : Json

/-- Python exceptions propagated out of `call_tool`. -/
inductive PyError where
  | keyError : String → PyError
  | valueError : String → PyError
deriving DecidableEq

/-- Python `str.lower()` (character-wise; coincides with CPython on the
ASCII strings this server handles). -/
def pyLower (s : String) : String := ⟨s.data.map Char.toLower⟩

/-- Handler `call_tool(name, arguments)`. The `arguments` dict is modelled
as an association list of string values (the declared schema); the
unconditional access `arguments["pokemon"]` raises `KeyError` when the key
is missing, and an unknown tool name raises `ValueError`. -/
def call_tool (name : String) (arguments : List (String × String)) :
    Except PyError (List TextContent) :=
  if name = "get_stats" then
    match dictGet "pokemon" arguments with
    | none => .error (.keyError "pokemon")
    | some arg =>
      let pokemon_name := pyLower arg
      match dictGet pokemon_name POKEMON_DATA with
      | none =>
        .ok [{ type := "text"
               text := .obj [("error", .str ("Pokemon " ++ pokemon_name ++ " not found"))] }]
      | some data =>
        .ok [{ type := "text"
               text := .obj [("name", .str data.name),
                             ("stats", .obj (data.stats.map fun q => (q.1, .int q.2)))] }]
  else
    .error (.valueError ("Unknown tool: " ++ name))

/-- `pat` occurs somewhere in `s` (as a contiguous substring); decides
whether `s.replace(pat, "")` can touch `s` at all. -/
def hasPat (pat : List Char) : List Char → Bool
  | [] => false
  | c :: rest => pat.isPrefixOf (c :: rest) || hasPat pat rest

/-! ### Elementary facts about the embedded string replacement -/

theorem isPrefixOf_length_le (l s : List Char) (h : l.isPrefixOf s = true) :
    l.length ≤ s.length := by
  induction l generalizing s with
  | nil => simp
  | cons a as ih =>
    cases s with
    | nil => simp [List.isPrefixOf] at h
    | cons b bs =>
      simp only [List.isPrefixOf, Bool.and_eq_true, beq_iff_eq] at h
      simpa using Nat.succ_le_succ (ih bs h.2)

theorem removeAll_nil (pat : List Char) : removeAll pat [] = [] := by
  rw [removeAll.eq_def]

theorem removeAll_cons_pos (pat : List Char) (c : Char) (rest : List Char)
    (h₁ : pat ≠ []) (h₂ : pat.isPrefixOf (c :: rest)) :
    removeAll pat (c :: rest) = removeAll pat (rest.drop (pat.length - 1)) := by
  rw [removeAll.eq_def]
  simp only [if_pos (And.intro h₁ h₂)]

theorem removeAll_pos (pat s : List Char) (h₁ : pat ≠ []) (h₂ : pat.isPrefixOf s) :
    removeAll pat s = removeAll pat (s.drop pat.length) := by
  cases s with
  | nil =>
    cases pat with
    | nil => exact absurd rfl h₁
    | cons a as => simp [List.isPrefixOf] at h₂
  | cons c rest =>
    rw [removeAll_cons_pos pat c rest h₁ h₂]
    obtain ⟨m, hm⟩ : ∃ m, pat.length = m + 1 := by
      cases hp : pat.length with
      | zero => exact absurd (List.eq_nil_of_length_eq_zero hp) h₁
      | succ m => exact ⟨m, rfl⟩
    rw [hm, List.drop_succ_cons, Nat.add_sub_cancel]

theorem removeAll_neg (pat : List Char) (c : Char) (rest : List Char)
    (h : ¬ pat.isPrefixOf (c :: rest) = true) :
    removeAll pat (c :: rest) = c :: removeAll pat rest := by
  rw [removeAll.eq_def]
  have hc : ¬ (pat ≠ [] ∧ pat.isPrefixOf (c :: rest) = true) := fun hand => h hand.2
  simp only [if_neg hc]

theorem isPrefixOf_append_self (l t : List Char) : l.isPrefixOf (l ++ t) = true := by
  induction l with
  | nil => cases t <;> rfl
  | cons a as ih => simp [List.isPrefixOf, ih]

theorem removeAll_prepend (pat s : List Char) (h : pat ≠ []) :
    removeAll pat (pat ++ s) = removeAll pat s := by
  rw [removeAll_pos pat (pat ++ s) h (isPrefixOf_append_self pat s), List.drop_left]

theorem removeAll_of_hasPat_false (pat s : List Char) (h : hasPat pat s = false) :
    removeAll pat s = s := by
  induction s with
  | nil => exact removeAll_nil pat
  | cons c rest ih =>
    simp only [hasPat, Bool.or_eq_false_iff] at h
    rw [removeAll_neg pat c rest (by simp [h.1]), ih h.2]

theorem hasPat_false_of_lt (pat s : List Char) (h : s.length < pat.length) :
    hasPat pat s = false := by
  induction s with
  | nil => rfl
  | cons c rest ih =>
    simp only [hasPat, Bool.or_eq_false_iff]
    refine ⟨?_, ih ?_⟩
    · cases hp : pat.isPrefixOf (c :: rest) with
      | false => rfl
      | true =>
        have hle := isPrefixOf_length_le pat (c :: rest) hp
        omega
    · have hlen : (c :: rest).length = rest.length + 1 := List.length_cons c rest
      omega

theorem data_append (s t : String) : (s ++ t).data = s.data ++ t.data := rfl

theorem mk_data (s : String) : String.mk s.data = s := rfl

theorem schemeChars_data : "pokemon://".data = schemeChars := rfl

/-- Stripping is the identity on strings that do not contain the scheme. -/
theorem stripScheme_id (s : String) (h : hasPat schemeChars s.data = false) :
    stripScheme s = s := by
  unfold stripScheme
  rw [removeAll_of_hasPat_false schemeChars s.data h, mk_data]

/-- A leading occurrence of the scheme is deleted and scanning continues. -/
theorem stripScheme_cons (s : String) :
    stripScheme ("pokemon://" ++ s) = stripScheme s := by
  unfold stripScheme
  rw [data_append, schemeChars_data, removeAll_prepend schemeChars s.data (by decide)]

/-- Stripping the scheme from `"pokemon://" ++ s` returns `s` whenever the
scheme string does not occur inside `s` itself. -/
theorem stripScheme_concat (s : String) (h : hasPat schemeChars s.data = false) :
    stripScheme ("pokemon://" ++ s) = s := by
  rw [stripScheme_cons, stripScheme_id s h]

/-- Short strings (shorter than the 10-character scheme) cannot contain the
scheme, so stripping is the identity past the first prefix. -/
theorem stripScheme_concat_short (s : String) (h : s.data.length < 10) :
    stripScheme ("pokemon://" ++ s) = s :=
  stripScheme_concat s (hasPat_false_of_lt schemeChars s.data (by simpa using h))

theorem isPrefixOf_iff_take (l s : List Char) :
    l.isPrefixOf s = true ↔ s.take l.length = l := by
  induction l generalizing s with
  | nil => cases s <;> simp [List.isPrefixOf]
  | cons a as ih =>
    cases s with
    | nil => simp [List.isPrefixOf]
    | cons b bs =>
      simp only [List.isPrefixOf, Bool.and_eq_true, beq_iff_eq, ih bs, List.length_cons,
        List.take_succ_cons, List.cons.injEq]
      exact ⟨fun h => ⟨h.1.symm, h.2⟩, fun h => ⟨h.1.symm, h.2⟩⟩

theorem schemeChars_length : schemeChars.length = 10 := by decide

/-- The scheme string has no non-trivial border: no proper non-empty
suffix of it is also a prefix of it. -/
theorem scheme_no_border :
    ∀ n, n < 10 → 0 < n → schemeChars.drop n ≠ schemeChars.take (10 - n) := by decide

/-- Because the scheme string is border-free and `a` is occurrence-free,
the scheme is not a prefix of `a ++ schemeChars ++ rest` when `a` is
non-empty: the first occurrence really starts after `a`. -/
theorem not_prefix_middle (a rest : List Char) (ha : hasPat schemeChars a = false)
    (hne : a ≠ []) : schemeChars.isPrefixOf (a ++ schemeChars ++ rest) = false := by
  cases hp : schemeChars.isPrefixOf (a ++ schemeChars ++ rest) with
  | false => rfl
  | true =>
    exfalso
    have htake : (a ++ schemeChars ++ rest).take schemeChars.length = schemeChars :=
      (isPrefixOf_iff_take schemeChars (a ++ schemeChars ++ rest)).mp hp
    rw [schemeChars_length, List.append_assoc, List.take_append_eq_append_take] at htake
    by_cases hlen : 10 ≤ a.length
    · have hsub : 10 - a.length = 0 := Nat.sub_eq_zero_of_le hlen
      rw [hsub, List.take_zero, List.append_nil] at htake
      have hpa : schemeChars.isPrefixOf a = true := by
        rw [isPrefixOf_iff_take, schemeChars_length]
        exact htake
      cases a with
      | nil => exact hne rfl
      | cons c a₂ =>
        simp only [hasPat, Bool.or_eq_false_iff] at ha
        rw [ha.1] at hpa
        exact Bool.false_ne_true hpa
    · push_neg at hlen
      have hta : a.take 10 = a := List.take_of_length_le (by omega)
      have hsub : (10 - a.length) - schemeChars.length = 0 := by
        rw [schemeChars_length]; omega
      rw [hta, List.take_append_eq_append_take, hsub, List.take_zero,
        List.append_nil] at htake
      have hdrop : schemeChars.drop a.length = schemeChars.take (10 - a.length) := by
        nth_rewrite 1 [← htake]
        exact List.drop_left a (schemeChars.take (10 - a.length))
      exact scheme_no_border a.length hlen (List.length_pos.mpr hne) hdrop

/-- Left-to-right replacement deletes an occurrence of the scheme sitting
after any occurrence-free block `a`, and keeps scanning the tail. -/
theorem removeAll_middle (a b : List Char) (ha : hasPat schemeChars a = false) :
    removeAll schemeChars (a ++ schemeChars ++ b) = a ++ removeAll schemeChars b := by
  induction a with
  | nil =>
    simpa using removeAll_prepend schemeChars b (by decide)
  | cons c a₂ ih =>
    simp only [hasPat, Bool.or_eq_false_iff] at ha
    have hnp : schemeChars.isPrefixOf ((c :: a₂) ++ schemeChars ++ b) = false :=
      not_prefix_middle (c :: a₂) b (by simp [hasPat, ha.1, ha.2]) (by simp)
    have hstep : (c :: a₂) ++ schemeChars ++ b = c :: (a₂ ++ schemeChars ++ b) := by
      simp
    rw [hstep] at hnp
    rw [hstep, removeAll_neg schemeChars c (a₂ ++ schemeChars ++ b) (by rw [hnp]; decide),
      ih ha.2, List.cons_append]

/-- Evaluation of `read_resource` on a well-formed URI whose identifier is
occurrence-free: the handler looks the identifier up directly. -/
theorem read_resource_concat (s : String) (h : hasPat schemeChars s.data = false) :
    read_resource ("pokemon://" ++ s) =
      (match dictGet s POKEMON_DATA with
       | none => Except.error ("Unknown Pokemon: " ++ s)
       | some d => Except.ok (recordJson d)) := by
  simp only [read_resource, stripScheme_concat s h]

/-! ### Claims -/

/-- C1: asymmetric error semantics. `call_tool("get_stats", ·)` with a
lower-cased "pokemon" argument absent from the mapping returns a
SUCCESSFUL response whose single text payload decodes to
`{"error": "Pokemon <name> not found"}` (a soft failure), whereas
`read_resource` on a URI whose extracted identifier is absent from the
mapping propagates an error; in particular
`call_tool("get_stats", {"pokemon": "missingno"})` succeeds with payload
`{"error": "Pokemon missingno not found"}`. -/
theorem c1_soft_failure_asymmetry :
    (∀ args a, dictGet "pokemon" args = some a →
      dictGet (pyLower a) POKEMON_DATA = none →
      call_tool "get_stats" args =
        .ok [{ type := "text"
               text := .obj [("error", .str ("Pokemon " ++ pyLower a ++ " not found"))] }]) ∧
    (∀ uri, dictGet (stripScheme uri) POKEMON_DATA = none →
      read_resource uri = .error ("Unknown Pokemon: " ++ stripScheme uri)) ∧
    call_tool "get_stats" [("pokemon", "missingno")] =
      .ok [{ type := "text"
             text := .obj [("error", .str "Pokemon missingno not found")] }] := by
  refine ⟨?_, ?_, rfl⟩
  · intro args a h₁ h₂
    simp [call_tool, h₁, h₂]
  · intro uri h
    simp [read_resource, h]

/-- Witness for C1 at concrete inputs. -/
theorem c1_soft_failure_asymmetry_witness :
    (dictGet "pokemon" [("pokemon", "MissingNo")] = some "MissingNo" ∧
     dictGet (pyLower "MissingNo") POKEMON_DATA = none ∧
     call_tool "get_stats" [("pokemon", "MissingNo")] =
       .ok [{ type := "text"
              text := .obj [("error", .str ("Pokemon " ++ pyLower "MissingNo" ++ " not found"))] }]) ∧
    (dictGet (stripScheme "pokemon://absent") POKEMON_DATA = none ∧
     read_resource "pokemon://absent" =
       .error ("Unknown Pokemon: " ++ stripScheme "pokemon://absent")) := by
  have hs : stripScheme "pokemon://absent" = "absent" := by
    rw [show ("pokemon://absent" : String) = "pokemon://" ++ "absent" from rfl]
    exact stripScheme_concat_short "absent" (by decide)
  have habs : dictGet (stripScheme "pokemon://absent") POKEMON_DATA = none := by
    rw [hs]; rfl
  exact ⟨⟨rfl, rfl, c1_soft_failure_asymmetry.1 [("pokemon", "MissingNo")] "MissingNo" rfl rfl⟩,
    ⟨habs, c1_soft_failure_asymmetry.2.1 "pokemon://absent" habs⟩⟩

/-- C2 counterexample: "PIKACHU" equals the stored key "pikachu" up to
letter case, yet `read_resource("pokemon://PIKACHU")` propagates a
not-found error instead of returning the record: the lookup is
case-SENSITIVE, refuting the claim. -/
theorem c2_counterexample :
    dictGet "pikachu" POKEMON_DATA = some pikachuRecord ∧
    pyLower "PIKACHU" = pyLower "pikachu" ∧
    read_resource ("pokemon://" ++ "PIKACHU") = .error ("Unknown Pokemon: " ++ "PIKACHU") ∧
    read_resource ("pokemon://" ++ "pikachu") = .ok (recordJson pikachuRecord) := by
  refine ⟨rfl, rfl, ?_, ?_⟩
  · rw [read_resource_concat "PIKACHU" (by decide)]
    rfl
  · rw [read_resource_concat "pikachu" (by decide)]
    rfl

/-- C2 (amended): `read_resource` lookup is case-SENSITIVE over the URI's
identifier: for the key stored (in lowercase canonical form) in the
mapping and any string equal to it up to letter case, the read succeeds
and returns the record exactly when the string is the stored key itself. -/
theorem c2_read_resource_case_sensitive :
    ∀ k r, dictGet k POKEMON_DATA = some r →
      ∀ s : String, pyLower s = pyLower k →
        (read_resource ("pokemon://" ++ s) = .ok (recordJson r) ↔ s = k) := by
  intro k r hk s hs
  have hk1 : k = "pikachu" := by
    by_cases h : k = "pikachu"
    · exact h
    · simp [dictGet, POKEMON_DATA, h] at hk
  subst hk1
  have hr : r = pikachuRecord := by
    simp [dictGet, POKEMON_DATA] at hk
    exact hk.symm
  subst hr
  have hdata : s.data.map Char.toLower = "pikachu".data.map Char.toLower := by
    have h₁ : pyLower s = pyLower "pikachu" := hs
    exact congrArg String.data h₁
  have hlen : s.data.length = 7 := by
    have h₁ := congrArg List.length hdata
    rw [List.length_map, List.length_map] at h₁
    rw [h₁]; decide
  have hstrip : stripScheme ("pokemon://" ++ s) = s :=
    stripScheme_concat_short s (by omega)
  constructor
  · intro hok
    by_contra hne
    have herr : read_resource ("pokemon://" ++ s) = .error ("Unknown Pokemon: " ++ s) := by
      simp only [read_resource, hstrip]
      have hnone : dictGet s POKEMON_DATA = none := by
        simp [dictGet, POKEMON_DATA, hne]
      rw [hnone]
    rw [herr] at hok
    exact Except.noConfusion hok
  · intro he
    subst he
    simp only [read_resource, hstrip]
    rfl

/-- Witness for C2 (amended) at the stored key and its upper-case variant. -/
theorem c2_read_resource_case_sensitive_witness :
    dictGet "pikachu" POKEMON_DATA = some pikachuRecord ∧
    pyLower "PIKACHU" = pyLower "pikachu" ∧
    (read_resource ("pokemon://" ++ "PIKACHU") = .ok (recordJson pikachuRecord) ↔
      ("PIKACHU" : String) = "pikachu") :=
  ⟨rfl, rfl, c2_read_resource_case_sensitive "pikachu" pikachuRecord rfl "PIKACHU" rfl⟩

/-- C3 counterexample: the identifier "pokemon://pikachu" is absent from
the mapping, yet `read_resource` on the URI built from it SUCCEEDS
(returning the pikachu record), because `replace` deletes every occurrence
of the scheme, not just the leading one: the universally quantified claim
is refuted. -/
theorem c3_counterexample :
    dictGet "pokemon://pikachu" POKEMON_DATA = none ∧
    read_resource ("pokemon://" ++ "pokemon://pikachu") = .ok (recordJson pikachuRecord) := by
  refine ⟨rfl, ?_⟩
  simp only [read_resource]
  rw [show ("pokemon://pikachu" : String) = "pokemon://" ++ "pikachu" from rfl,
    stripScheme_cons, stripScheme_cons, stripScheme_id "pikachu" (by decide)]
  rfl

/-- C3 (amended): for every identifier that does not itself contain the
scheme string "pokemon://" and is absent from the mapping, `read_resource`
on the URI built from it fails with the propagated not-found error
carrying that identifier. -/
theorem c3_not_found_propagates :
    ∀ pid : String, hasPat schemeChars pid.data = false →
      dictGet pid POKEMON_DATA = none →
      read_resource ("pokemon://" ++ pid) = .error ("Unknown Pokemon: " ++ pid) := by
  intro pid h habs
  rw [read_resource_concat pid h, habs]

/-- Witness for C3 (amended) at the absent identifier "missingno". -/
theorem c3_not_found_propagates_witness :
    hasPat schemeChars "missingno".data = false ∧
    dictGet "missingno" POKEMON_DATA = none ∧
    read_resource ("pokemon://" ++ "missingno") =
      .error ("Unknown Pokemon: " ++ "missingno") :=
  ⟨by decide, rfl, c3_not_found_propagates "missingno" (by decide) rfl⟩

/-- C4: `call_tool("get_stats", {"pokemon": "Pikachu"})` succeeds and its
single text payload decodes to exactly
`{"name": "Pikachu", "stats": {"hp": 35, "attack": 55, "defense": 40,
"speed": 90}}`; in general, for every key present in the mapping the
payload is `{"name": <display name>, "stats": <attribute set>}` of the
stored record. -/
theorem c4_get_stats_payload :
    call_tool "get_stats" [("pokemon", "Pikachu")] =
      .ok [{ type := "text"
             text := .obj [("name", .str "Pikachu"),
                           ("stats", .obj [("hp", .int 35), ("attack", .int 55),
                                           ("defense", .int 40), ("speed", .int 90)])] }] ∧
    (∀ k r, dictGet k POKEMON_DATA = some r →
      ∀ args a, dictGet "pokemon" args = some a → pyLower a = k →
        call_tool "get_stats" args =
          .ok [{ type := "text"
                 text := .obj [("name", .str r.name),
                               ("stats", .obj (r.stats.map fun q => (q.1, .int q.2)))] }]) := by
  refine ⟨rfl, ?_⟩
  intro k r hk args a ha hl
  simp [call_tool, ha, hl, hk]

/-- Witness for C4's general part at a mixed-case argument. -/
theorem c4_get_stats_payload_witness :
    dictGet "pikachu" POKEMON_DATA = some pikachuRecord ∧
    dictGet "pokemon" [("pokemon", "PiKaChu")] = some "PiKaChu" ∧
    pyLower "PiKaChu" = "pikachu" ∧
    call_tool "get_stats" [("pokemon", "PiKaChu")] =
      .ok [{ type := "text"
             text := .obj [("name", .str pikachuRecord.name),
                           ("stats", .obj (pikachuRecord.stats.map fun q => (q.1, .int q.2)))] }] :=
  ⟨rfl, rfl, rfl,
    c4_get_stats_payload.2 "pikachu" pikachuRecord rfl [("pokemon", "PiKaChu")] "PiKaChu" rfl rfl⟩

/-- C5: every operation name other than "get_stats" makes `call_tool` fail
with the propagated unknown-tool `ValueError` carrying that name, for any
argument mapping; in particular `call_tool("bogus_tool", {})` fails with
the error carrying "bogus_tool". -/
theorem c5_unknown_tool_error :
    (∀ name args, name ≠ "get_stats" →
      call_tool name args = .error (.valueError ("Unknown tool: " ++ name))) ∧
    call_tool "bogus_tool" [] = .error (.valueError "Unknown tool: bogus_tool") := by
  refine ⟨?_, rfl⟩
  intro name args h
  simp [call_tool, h]

/-- Witness for C5's general part at another unknown operation name. -/
theorem c5_unknown_tool_error_witness :
    ("another_tool" : String) ≠ "get_stats" ∧
    call_tool "another_tool" [("pokemon", "pikachu")] =
      .error (.valueError ("Unknown tool: " ++ "another_tool")) :=
  ⟨by decide, c5_unknown_tool_error.1 "another_tool" [("pokemon", "pikachu")] (by decide)⟩

/-- C6: `call_tool("get_stats", ·)` is case-insensitive in the "pokemon"
argument — two argument strings equal up to letter case produce identical
results (e.g. "PIKACHU" and "pikachu") — while the mapping's stored
canonical key is matched exactly. -/
theorem c6_case_insensitive_argument :
    (∀ s t : String, pyLower s = pyLower t →
      call_tool "get_stats" [("pokemon", s)] = call_tool "get_stats" [("pokemon", t)]) ∧
    call_tool "get_stats" [("pokemon", "PIKACHU")] =
      call_tool "get_stats" [("pokemon", "pikachu")] ∧
    (∀ s r, dictGet s POKEMON_DATA = some r ↔ (s = "pikachu" ∧ r = pikachuRecord)) := by
  refine ⟨?_, rfl, ?_⟩
  · intro s t h
    simp [call_tool, dictGet, h]
  · intro s r
    constructor
    · intro h
      by_cases hs : s = "pikachu"
      · subst hs
        simp [dictGet, POKEMON_DATA] at h
        exact ⟨rfl, h.symm⟩
      · simp [dictGet, POKEMON_DATA, hs] at h
    · rintro ⟨h₁, h₂⟩
      subst h₁
      subst h₂
      rfl

/-- Witness for C6's general part at a mixed-case pair. -/
theorem c6_case_insensitive_argument_witness :
    pyLower "PikaCHU" = pyLower "pikachu" ∧
    call_tool "get_stats" [("pokemon", "PikaCHU")] =
      call_tool "get_stats" [("pokemon", "pikachu")] :=
  ⟨rfl, c6_case_insensitive_argument.1 "PikaCHU" "pikachu" rfl⟩

/-- C7: for every identifier present in the mapping, `read_resource` on
`"pokemon://" ++ identifier` succeeds with the serialized full record,
whose decoded "name" field is the record's stored display name. -/
theorem c7_read_resource_present :
    ∀ k r, dictGet k POKEMON_DATA = some r →
      read_resource ("pokemon://" ++ k) = .ok (recordJson r) ∧
      (recordJson r).getField "name" = some (.str r.name) := by
  intro k r hk
  have hk1 : k = "pikachu" := by
    by_cases h : k = "pikachu"
    · exact h
    · simp [dictGet, POKEMON_DATA, h] at hk
  subst hk1
  constructor
  · rw [read_resource_concat "pikachu" (by decide), hk]
  · simp [recordJson, Json.getField, dictGet]

/-- Witness for C7 at the stored identifier "pikachu". -/
theorem c7_read_resource_present_witness :
    dictGet "pikachu" POKEMON_DATA = some pikachuRecord ∧
    read_resource ("pokemon://" ++ "pikachu") = .ok (recordJson pikachuRecord) ∧
    (recordJson pikachuRecord).getField "name" = some (.str pikachuRecord.name) :=
  ⟨rfl, (c7_read_resource_present "pikachu" pikachuRecord rfl).1,
    (c7_read_resource_present "pikachu" pikachuRecord rfl).2⟩

/-- C8: `list_resources()` returns exactly one descriptor per mapping
entry, in order; the descriptor at index `i` carries the URI
`"pokemon://" ++ identifier`, the record's display name, the fixed
mimeType "application/json" and a description string. (The handler is
embedded as a pure constant reading only the immutable mapping, so
repeated calls agree definitionally: there is no hidden mutation.) -/
theorem c8_list_resources_descriptors :
    list_resources.length = POKEMON_DATA.length ∧
    (∀ i (h : i < POKEMON_DATA.length) (h₂ : i < list_resources.length),
      list_resources.get ⟨i, h₂⟩ =
        { uri := "pokemon://" ++ (POKEMON_DATA.get ⟨i, h⟩).1
          name := (POKEMON_DATA.get ⟨i, h⟩).2.name
          mimeType := "application/json"
          description := "Information about " ++ (POKEMON_DATA.get ⟨i, h⟩).2.name }) := by
  refine ⟨by simp [list_resources], ?_⟩
  intro i h h₂
  simp only [list_resources, List.get_eq_getElem, List.getElem_map]

/-- Witness for C8 at index 0. -/
theorem c8_list_resources_descriptors_witness :
    0 < POKEMON_DATA.length ∧ 0 < list_resources.length ∧
    list_resources.get ⟨0, by decide⟩ =
      { uri := "pokemon://" ++ (POKEMON_DATA.get ⟨0, by decide⟩).1
        name := (POKEMON_DATA.get ⟨0, by decide⟩).2.name
        mimeType := "application/json"
        description := "Information about " ++ (POKEMON_DATA.get ⟨0, by decide⟩).2.name } :=
  ⟨by decide, by decide, c8_list_resources_descriptors.2 0 (by decide) (by decide)⟩

/-- C9 (implicit): `read_resource` removes EVERY occurrence of
"pokemon://" from the URI, not only a leading prefix: an occurrence after
any occurrence-free block is deleted and scanning continues; in
particular the lookup key for "pokemon://pokemon://pikachu" is "pikachu"
(not "pokemon://pikachu"), so that URI reads the pikachu record. -/
theorem c9_replace_all_occurrences :
    (∀ a b : String, hasPat schemeChars a.data = false →
      stripScheme (a ++ "pokemon://" ++ b) = a ++ stripScheme b) ∧
    stripScheme "pokemon://pokemon://pikachu" = "pikachu" ∧
    read_resource "pokemon://pokemon://pikachu" = .ok (recordJson pikachuRecord) := by
  refine ⟨?_, ?_, ?_⟩
  · intro a b ha
    unfold stripScheme
    rw [data_append, data_append, schemeChars_data, removeAll_middle a.data b.data ha]
    rfl
  · rw [show ("pokemon://pokemon://pikachu" : String) =
        "pokemon://" ++ ("pokemon://" ++ "pikachu") from rfl,
      stripScheme_cons, stripScheme_cons, stripScheme_id "pikachu" (by decide)]
  · simp only [read_resource]
    rw [show ("pokemon://pokemon://pikachu" : String) =
        "pokemon://" ++ ("pokemon://" ++ "pikachu") from rfl,
      stripScheme_cons, stripScheme_cons, stripScheme_id "pikachu" (by decide)]
    rfl

/-- Witness for C9's general part: a non-leading occurrence after the
occurrence-free block "x" is deleted. -/
theorem c9_replace_all_occurrences_witness :
    hasPat schemeChars "x".data = false ∧
    stripScheme ("x" ++ "pokemon://" ++ "y") = "x" ++ stripScheme "y" :=
  ⟨by decide, c9_replace_all_occurrences.1 "x" "y" (by decide)⟩

/-- C10 (implicit): when the argument mapping lacks the "pokemon" key,
`call_tool("get_stats", ·)` propagates the missing-key failure raised by
the unconditional `arguments["pokemon"]` access, before any lookup — it
does not return the soft-failure success payload. -/
theorem c10_missing_argument_raises :
    ∀ args, dictGet "pokemon" args = none →
      call_tool "get_stats" args = .error (.keyError "pokemon") := by
  intro args h
  simp [call_tool, h]

/-- Witness for C10 at the empty argument mapping. -/
theorem c10_missing_argument_raises_witness :
    dictGet "pokemon" ([] : List (String × String)) = none ∧
    call_tool "get_stats" [] = .error (.keyError "pokemon") :=
  ⟨rfl, c10_missing_argument_raises [] rfl⟩

end PokemonServer
